import Mathlib

/-!
# IronBucket: verification of the spec's claims against the source

This file shallow-embeds the parts of the IronBucket S3 server (Rust) that the
frozen claims C1–C10 are about, and settles each claim.

Conventions of the embedding:
* machine bytes are `Nat` values (`Bytes := List Nat`); byte-string literals
  are spelled as lists of ASCII codes;
* Rust `HashMap`s that are only looked up / updated pointwise become Lean
  functions `key → Option value`;
* the filesystem is a record of such maps (object files, sidecars, version
  files, ...); `fs::write` always succeeds in the model (no IO-error claims
  are in scope);
* AES-256-GCM (`encrypt_data` / `decrypt_data` with a freshly generated random
  key and nonce, main.rs lines 108–146) is abstracted as a pair of functions
  `enc : Bytes → Bytes` and `dec : Bytes → Option Bytes` standing for the
  sealed/open operations under that request's key and nonce; the randomly
  generated key-material itself is irrelevant to every claim;
* MD5 (`md5::compute`) is abstracted as a parameter `md5hex : Bytes → String`;
* text processing that Rust performs through `String::from_utf8_lossy` is
  modelled byte-for-byte where only ASCII can matter (an ASCII pattern occurs
  in the lossy-decoded string iff it occurs in the raw bytes), and through an
  explicit lossy decode (`lossyChars`) for the chunk-size field, where
  Rust's Unicode `str::trim` is observable.
-/

/-- Byte strings: each entry is one byte value. -/
abbrev Bytes := List Nat

/-- Pointwise update of a map modelled as a function (`HashMap::insert` /
`HashMap::remove` with `v = none`). -/
def mupd {α β : Type} [DecidableEq α] (m : α → Option β) (a : α) (v : Option β) :
    α → Option β :=
  fun x => if x = a then v else m x

/-- The empty map. -/
def mempty {α β : Type} : α → Option β := fun _ => none

/-! ### Rust `str` primitives

The embedding re-implements the handful of `str` operations the sources use
as structural recursions over the character list, so that every concrete
instance below evaluates inside the kernel. -/

/-- `str::split(sep)` for a one-character separator: empty pieces are kept
(`split('/')` on `""` gives `[""]`). -/
def splitOnChar (sep : Char) : List Char → List (List Char)
  | [] => [[]]
  | c :: rest =>
    match splitOnChar sep rest with
    | [] => [[]]
    | h :: t => if c = sep then [] :: h :: t else (c :: h) :: t

/-- `str::split(pred)` for a character predicate (empty pieces kept). -/
def splitPred (p : Char → Bool) : List Char → List (List Char)
  | [] => [[]]
  | c :: rest =>
    match splitPred p rest with
    | [] => [[]]
    | h :: t => if p c then [] :: h :: t else (c :: h) :: t

/-- `str::starts_with`. -/
def strStartsWith (s pre : String) : Bool :=
  pre.toList.isPrefixOf s.toList

/-- `str::ends_with`. -/
def strEndsWith (s post : String) : Bool :=
  post.toList.isSuffixOf s.toList

/-- `str::split` on one character, as strings. -/
def strSplitChar (sep : Char) (s : String) : List String :=
  (splitOnChar sep s.toList).map List.asString

/-- `str::split_whitespace`: split on whitespace and drop empty pieces. -/
def strSplitWhitespace (s : String) : List String :=
  ((splitPred Char.isWhitespace s.toList).filter (· ≠ [])).map List.asString

/-! ## AWS chunked-body decoder (main.rs `parse_chunked_data`, lines 52–107,
and `find_sequence`, lines 109–113) -/

/-- `find_sequence` (main.rs 109–113): index of the first window of `haystack`
equal to `needle` (`windows(n).position`); `none` if no window matches. -/
def find_sequence : Bytes → Bytes → Option Nat
  | [], _ => none
  | a :: t, needle =>
    if needle.isPrefixOf (a :: t) then some 0
    else (find_sequence t needle).map (· + 1)

/-- Unicode `White_Space` characters, as removed by `str::trim`
(`char::is_whitespace`): U+0009–U+000D, U+0020, U+0085, U+00A0, U+1680,
U+2000–U+200A, U+2028, U+2029, U+202F, U+205F, U+3000. -/
def rustIsWhitespaceChar (c : Char) : Bool :=
  let n := c.toNat
  (9 ≤ n && n ≤ 13) || n = 32 || n = 133 || n = 160 || n = 5760 ||
    (8192 ≤ n && n ≤ 8202) || n = 8232 || n = 8233 || n = 8239 ||
    n = 8287 || n = 12288

/-- Hex-digit test of `char::to_digit(16)` (`usize::from_str_radix` digits). -/
def isHexDigitChar (c : Char) : Bool :=
  (48 ≤ c.toNat && c.toNat ≤ 57) || (97 ≤ c.toNat && c.toNat ≤ 102) ||
    (65 ≤ c.toNat && c.toNat ≤ 70)

/-- Value of one hex-digit character. -/
def hexCharVal (c : Char) : Nat :=
  if 48 ≤ c.toNat && c.toNat ≤ 57 then c.toNat - 48
  else if 97 ≤ c.toNat && c.toNat ≤ 102 then c.toNat - 87
  else c.toNat - 55

/-- `String::from_utf8_lossy` of the chunk-size field, reduced to what
`str::trim` + `usize::from_str_radix(_, 16)` can observe.  ASCII bytes decode
to themselves; the exact UTF-8 encodings of the non-ASCII `White_Space`
characters (U+0085 `C2 85`, U+00A0 `C2 A0`, U+1680 `E1 9A 80`,
U+2000–U+200A `E2 80 80`–`E2 80 8A`, U+2028 `E2 80 A8`, U+2029 `E2 80 A9`,
U+202F `E2 80 AF`, U+205F `E2 81 9F`, U+3000 `E3 80 80`) decode to those
characters; every other non-ASCII byte becomes one U+FFFD.  This differs from
the real lossy decoding only in how many U+FFFD a non-whitespace non-ASCII
sequence yields (the real decoder groups valid sequences and maximal invalid
subparts), which trimming and hex parsing cannot distinguish: U+FFFD and
every valid non-ASCII non-whitespace character are equally non-whitespace and
non-digit.  The grouping of the whitespace encodings agrees with the real
decoder because their lead bytes (`C2`/`E1`/`E2`/`E3`) are never continuation
bytes, so they can only occur at a real character boundary. -/
def lossyCharsAux : Nat → Bytes → List Char
  | 0, _ => []
  | _, [] => []
  | fuel + 1, b :: rest =>
    if b < 128 then Char.ofNat b :: lossyCharsAux fuel rest
    else if b = 194 then
      -- C2 85 = U+0085, C2 A0 = U+00A0
      match rest with
      | 133 :: rest2 => Char.ofNat 133 :: lossyCharsAux fuel rest2
      | 160 :: rest2 => Char.ofNat 160 :: lossyCharsAux fuel rest2
      | _ => Char.ofNat 65533 :: lossyCharsAux fuel rest
    else if b = 225 then
      -- E1 9A 80 = U+1680
      match rest with
      | 154 :: 128 :: rest3 => Char.ofNat 5760 :: lossyCharsAux fuel rest3
      | _ => Char.ofNat 65533 :: lossyCharsAux fuel rest
    else if b = 226 then
      -- E2 80 80..8A = U+2000..U+200A, E2 80 A8/A9/AF, E2 81 9F = U+205F
      match rest with
      | c1 :: c2 :: rest3 =>
        if c1 = 128 && (128 ≤ c2 && c2 ≤ 138) then
          Char.ofNat (8192 + (c2 - 128)) :: lossyCharsAux fuel rest3
        else if c1 = 128 && c2 = 168 then Char.ofNat 8232 :: lossyCharsAux fuel rest3
        else if c1 = 128 && c2 = 169 then Char.ofNat 8233 :: lossyCharsAux fuel rest3
        else if c1 = 128 && c2 = 175 then Char.ofNat 8239 :: lossyCharsAux fuel rest3
        else if c1 = 129 && c2 = 159 then Char.ofNat 8287 :: lossyCharsAux fuel rest3
        else Char.ofNat 65533 :: lossyCharsAux fuel rest
      | _ => Char.ofNat 65533 :: lossyCharsAux fuel rest
    else if b = 227 then
      -- E3 80 80 = U+3000
      match rest with
      | 128 :: 128 :: rest3 => Char.ofNat 12288 :: lossyCharsAux fuel rest3
      | _ => Char.ofNat 65533 :: lossyCharsAux fuel rest
    else Char.ofNat 65533 :: lossyCharsAux fuel rest

/-- `lossyCharsAux` with enough fuel: every step consumes at least one byte,
so the byte count suffices. -/
def lossyChars (s : Bytes) : List Char :=
  lossyCharsAux s.length s

/-- A nonempty all-hex run of characters, as the digit part of
`usize::from_str_radix(_, 16)`.  (The value is an unbounded `Nat`: a field
whose numeric value exceeds `usize::MAX` makes Rust break the chunk loop with
an `Err`, and in the model the value then also exceeds the input length, so
the loop takes the same break; no other behaviour depends on the width.) -/
def hexDigitsVal (ds : List Char) : Option Nat :=
  if ds ≠ [] && ds.all isHexDigitChar then
    some (ds.foldl (fun acc c => acc * 16 + hexCharVal c) 0)
  else none

/-- `usize::from_str_radix(size_str.trim(), 16)` (main.rs 74): the chunk-size
bytes are `from_utf8_lossy`-decoded, trimmed of Unicode whitespace, and
parsed as an optional `+` or `-` sign followed by hex digits.  A `-` sign
succeeds (with value 0) only when every digit is zero — for an unsigned
target any other digit underflows to `Err` in Rust. -/
def from_str_radix16 (s : Bytes) : Option Nat :=
  let t := ((lossyChars s).dropWhile rustIsWhitespaceChar).reverse
    |>.dropWhile rustIsWhitespaceChar |>.reverse
  match t with
  | '+' :: ds => hexDigitsVal ds
  | '-' :: ds =>
    match hexDigitsVal ds with
    | some 0 => some 0
    | _ => none
  | ds => hexDigitsVal ds

/-- One pass of the `while pos < input.len()` loop of `parse_chunked_data`
(main.rs 56–100), driven by fuel.  Each iteration advances `pos` by at least
two, so `input.length + 1` fuel always suffices. -/
def parseChunkedLoop (input : Bytes) : Nat → Nat → Bytes → Bytes
  | 0, _, result => result
  | fuel + 1, pos, result =>
    if pos < input.length then
      match find_sequence (input.drop pos) [13, 10] with
      | none => result
      | some i =>
        let header := (input.drop pos).take i
        -- `header_str.find(';')` and the slice before it: a `;` byte always
        -- decodes to `;` and never occurs inside a multi-byte sequence, so
        -- the decoded prefix before the first `;` is the decoding of the raw
        -- bytes before the first `;` byte
        let size_str := header.takeWhile (fun b => b ≠ 59)
        match from_str_radix16 size_str with
        | none => result
        | some chunk_size =>
          let pos := pos + i + 2
          if chunk_size = 0 then result
          else if pos + chunk_size ≤ input.length then
            let result := result ++ ((input.drop pos).take chunk_size)
            let pos := pos + chunk_size
            let pos :=
              if pos + 2 ≤ input.length &&
                  (input.drop pos).take 2 = [13, 10] then pos + 2 else pos
            parseChunkedLoop input fuel pos result
          else result
    else result

/-- `parse_chunked_data` (main.rs 52–107): decode AWS chunk framing; if no
chunk was parsed, return the input unchanged. -/
def parse_chunked_data (input : Bytes) : Bytes :=
  let result := parseChunkedLoop input (input.length + 1) 0 []
  if result = [] then input else result

/-- Byte-level substring test: `String::from_utf8_lossy(..).contains(pat)` for
an ASCII pattern `pat` (an ASCII byte sequence occurs in the lossy-decoded
string iff it occurs in the raw bytes). -/
def containsSeq (haystack needle : Bytes) : Bool :=
  (find_sequence haystack needle).isSome

/-- The ASCII bytes of `";chunk-signature="`. -/
def chunkSigBytes : Bytes :=
  [59, 99, 104, 117, 110, 107, 45, 115, 105, 103, 110, 97, 116, 117, 114, 101, 61]

/-- The chunked-transfer heuristic of `put_object` (main.rs 2937–2944): bodies
longer than 100 bytes whose first 100 bytes contain `";chunk-signature="` are
passed through `parse_chunked_data`. -/
def decodeBody (body : Bytes) : Bytes :=
  if 100 < body.length && containsSeq (body.take 100) chunkSigBytes then
    parse_chunked_data body
  else body

/-! ## Object store model (main.rs `put_object` 2924–3160, `get_object`
3162–3250, `delete_object` 3252–3309) -/

/-- `ObjectEncryption` as recorded in a sidecar (main.rs): the algorithm name
plus the decryption map determined by the stored key/nonce material
(`decrypt_data` under that key and nonce). -/
structure EncInfo where
  algorithm : String
  dec : Bytes → Option Bytes

/-- The sidecar `ObjectMetadata` fields the claims inspect. -/
structure ObjMeta where
  etag : String
  size : Nat
  encryption : Option EncInfo

/-- In-memory `ObjectData` (main.rs 410–415): only metadata is kept. -/
structure MemObj where
  size : Nat
  etag : String

/-- In-memory `BucketData` fields the claims inspect (main.rs 238–248). -/
structure BucketMem where
  versioningStatus : Option String
  encryption : Option String
  memObjects : String → Option MemObj

/-- A fresh `BucketData` record (`or_insert_with` default, main.rs 2970–2979). -/
def newBucketMem : BucketMem :=
  { versioningStatus := none, encryption := none, memObjects := mempty }

/-- The storage state: object files, sidecars, version files under
`.versions/<key>/<vid>`, version sidecars, the per-bucket `.versioning` files,
and the in-memory bucket map. -/
structure Store where
  objects : String × String → Option Bytes
  metas : String × String → Option ObjMeta
  versionFiles : String × String × String → Option Bytes
  versionMetas : String × String × String → Option ObjMeta
  versioningFile : String → Option String
  buckets : String → Option BucketMem
  dirs : String × String → Bool

/-- A store with nothing in it. -/
def emptyStore : Store :=
  { objects := mempty, metas := mempty, versionFiles := mempty,
    versionMetas := mempty, versioningFile := mempty, buckets := mempty,
    dirs := fun _ => false }

/-- One request's AES-256-GCM sealing pair: `enc` is `encrypt_data` under the
freshly generated key and nonce, `dec` is `decrypt_data` under the same key
and nonce. -/
structure Cipher where
  enc : Bytes → Bytes
  dec : Bytes → Option Bytes

/-- Response of `put_object`. -/
structure PutResponse where
  status : Nat
  etag : String
  versionId : Option String

/-- `put_object` (main.rs 2924–3160).  `md5hex` abstracts `md5::compute`,
`cipher` abstracts this request's AES-GCM key/nonce pair, `vid` the freshly
generated UUID used when versioning is enabled.  Mirrors the source order:
decode chunked body, compute etag of the decoded plaintext, load versioning
status (memory, falling back to the `.versioning` file), write the *plaintext*
into `.versions/<k>/<vid>` when versioning is enabled, then encrypt when the
bucket has AES256 encryption, write the (possibly encrypted) object file and
its sidecar, and insert the in-memory bucket/object records. -/
def put_object (md5hex : Bytes → String) (cipher : Cipher) (vid : String)
    (s : Store) (bucket key : String) (body : Bytes) : PutResponse × Store :=
  let data := decodeBody body
  let etag := md5hex data
  -- versioning block (main.rs 2963–3030): `entry(bucket).or_insert_with(...)`
  let bm0 := (s.buckets bucket).getD newBucketMem
  let bm :=
    { bm0 with
      versioningStatus := bm0.versioningStatus.orElse (fun _ => s.versioningFile bucket) }
  let versioningEnabled := bm.versioningStatus = some "Enabled"
  let versionId := if versioningEnabled then some vid else none
  let versionFiles :=
    if versioningEnabled then mupd s.versionFiles (bucket, key, vid) (some data)
    else s.versionFiles
  -- encryption check (main.rs 3048–3078): uses the in-memory bucket record
  let encInfo :=
    if bm.encryption = some "AES256" then
      some (cipher.enc data, EncInfo.mk "AES256" cipher.dec)
    else none
  let final_data := match encInfo with
    | some (e, _) => e
    | none => data
  let objectEncryption := match encInfo with
    | some (_, i) => some i
    | none => none
  let meta : ObjMeta :=
    { etag := etag, size := final_data.length, encryption := objectEncryption }
  let bm :=
    { bm with
      memObjects := mupd bm.memObjects key (some { size := data.length, etag := etag }) }
  let s :=
    { s with
      objects := mupd s.objects (bucket, key) (some final_data),
      metas := mupd s.metas (bucket, key) (some meta),
      versionFiles := versionFiles,
      buckets := mupd s.buckets bucket (some bm) }
  ({ status := 200, etag := etag, versionId := versionId }, s)

/-- Response of `get_object`: status and body. -/
structure GetResult where
  status : Nat
  body : Bytes

/-- `get_object` (main.rs 3162–3250): read the object file (404 if absent);
with a parseable sidecar, decrypt when `encryption.algorithm == "AES256"`
(500 on decryption failure); otherwise return the raw bytes. -/
def get_object (s : Store) (bucket key : String) : GetResult :=
  match s.objects (bucket, key) with
  | none => { status := 404, body := [] }
  | some data =>
    match s.metas (bucket, key) with
    | some meta =>
      match meta.encryption with
      | some enc =>
        if enc.algorithm = "AES256" then
          match enc.dec data with
          | some decrypted => { status := 200, body := decrypted }
          | none => { status := 500, body := [] }
        else { status := 200, body := data }
      | none => { status := 200, body := data }
    | none => { status := 200, body := data }

/-- `delete_object` (main.rs 3252–3309).  Keys ending in `/` or resolving to a
directory take the prefix branch, which returns 204 in every case; otherwise
the object file, sidecar, and in-memory entry are removed, and the status is
204 when at least one of the three existed, 404 otherwise. -/
def delete_object (s : Store) (bucket key : String) : Nat × Store :=
  if strEndsWith key "/" || s.dirs (bucket, key) then
    -- prefix branch (main.rs 3260–3283): every outcome is NO_CONTENT; the
    -- claims never inspect the directory tree afterwards
    (204, s)
  else
    let disk_deleted := (s.objects (bucket, key)).isSome
    let metadata_deleted := (s.metas (bucket, key)).isSome
    let memory_deleted := match s.buckets bucket with
      | some bm => (bm.memObjects key).isSome
      | none => false
    let s :=
      { s with
        objects := mupd s.objects (bucket, key) none,
        metas := mupd s.metas (bucket, key) none,
        buckets := match s.buckets bucket with
          | some bm =>
            mupd s.buckets bucket (some { bm with memObjects := mupd bm.memObjects key none })
          | none => s.buckets }
    (if disk_deleted || memory_deleted || metadata_deleted then 204 else 404, s)

/-! ## Signature V4 verifier (auth.rs `AuthMiddleware::verify_signature_v4`,
lines 45–104, and the live header-auth path of `auth_middleware` in main.rs,
lines 2891–2922) -/

/-- `str::strip_prefix`: remove `pat` once, or fail. -/
def rust_strip_once (s pat : String) : Option String :=
  if strStartsWith s pat then some (s.drop pat.length) else none

/-- `str::trim_start_matches`: repeatedly remove the prefix `pat`. -/
def trimStartMatchesAux (pat : String) : Nat → String → String
  | 0, s => s
  | fuel + 1, s =>
    if pat ≠ "" && strStartsWith s pat then trimStartMatchesAux pat fuel (s.drop pat.length)
    else s

/-- `str::trim_start_matches`. -/
def trim_start_matches (s pat : String) : String :=
  trimStartMatchesAux pat s.length s

/-- `str::trim_end_matches`: repeatedly remove the suffix `pat`. -/
def trimEndMatchesAux (pat : String) : Nat → String → String
  | 0, s => s
  | fuel + 1, s =>
    if pat ≠ "" && strEndsWith s pat then trimEndMatchesAux pat fuel (s.dropRight pat.length)
    else s

/-- `str::trim_end_matches`. -/
def trim_end_matches (s pat : String) : String :=
  trimEndMatchesAux pat s.length s

/-- The request fields `verify_signature_v4` / `create_canonical_request`
read: method, URI path, query, and a header lookup. -/
structure HttpReq where
  method : String
  uriPath : String
  uriQuery : Option String
  headers : String → Option String

/-- `AuthConfig`: the single configured credential pair (config.rs). -/
structure AuthConfig where
  access_key_id : String
  secret_access_key : String

/-- The outcome of `verify_signature_v4`: `Ok(())` or one of the `Error`
variants it produces (error.rs). -/
inductive AuthResult where
  | ok
  | invalidRequest (reason : String)
  | invalidAccessKeyId
  | signatureDoesNotMatch
deriving DecidableEq

/-- The hash primitives of the verifier, abstracted: UTF-8 encoding of a
string, hex(SHA-256) of a string, HMAC-SHA-256 over byte strings, and hex
encoding of bytes. -/
structure HashPrims where
  strBytes : String → Bytes
  sha256hex : String → String
  hmac : Bytes → Bytes → Bytes
  hexenc : Bytes → String

/-- Header parsing of `verify_signature_v4` (auth.rs 50–60): split the
Authorization header on whitespace (`split_whitespace` drops empty pieces),
require exactly four parts with the `AWS4-HMAC-SHA256` prefix, and strip the
`Credential=` / `SignedHeaders=` / `Signature=` decorations. -/
def v4_parse (authHeader : String) : Option (String × String × String) :=
  let parts := strSplitWhitespace authHeader
  match parts with
  | [p0, p1, p2, p3] =>
    if strStartsWith p0 "AWS4-HMAC-SHA256" then
      some (trim_end_matches (trim_start_matches p1 "Credential=") ",",
            trim_end_matches (trim_start_matches p2 "SignedHeaders=") ",",
            trim_start_matches p3 "Signature=")
    else none
  | _ => none

/-- `create_canonical_request` (auth.rs 107–138). -/
def create_canonical_request (req : HttpReq) (signed_headers : String) : String :=
  let canonical_headers := String.join
    ((strSplitChar ';' signed_headers).filterMap
      (fun name => (req.headers name).map (fun v => name ++ ":" ++ v ++ "\n")))
  let payload_hash := (req.headers "x-amz-content-sha256").getD "UNSIGNED-PAYLOAD"
  req.method ++ "\n" ++ req.uriPath ++ "\n" ++ (req.uriQuery.getD "") ++ "\n" ++
    canonical_headers ++ "\n" ++ signed_headers ++ "\n" ++ payload_hash

/-- The signature recomputed from the request (auth.rs 78–99: canonical
request, string-to-sign, signing key, final HMAC). -/
def v4_calculated (P : HashPrims) (cfg : AuthConfig) (req : HttpReq)
    (date region service request_type signed_headers : String) : String :=
  let canonical_request := create_canonical_request req signed_headers
  let canonical_request_hash := P.sha256hex canonical_request
  let string_to_sign :=
    "AWS4-HMAC-SHA256\n" ++ ((req.headers "x-amz-date").getD "") ++ "\n" ++
    date ++ "/" ++ region ++ "/" ++ service ++ "/" ++ request_type ++ "\n" ++
    canonical_request_hash
  let signing_key :=
    P.hmac (P.hmac (P.hmac (P.hmac (P.strBytes ("AWS4" ++ cfg.secret_access_key))
      (P.strBytes date)) (P.strBytes region)) (P.strBytes service))
      (P.strBytes "aws4_request")
  P.hexenc (P.hmac signing_key (P.strBytes string_to_sign))

/-- `AuthMiddleware::verify_signature_v4` (auth.rs 45–104). -/
def verify_signature_v4 (P : HashPrims) (cfg : AuthConfig) (req : HttpReq)
    (authHeader : String) : AuthResult :=
  match v4_parse authHeader with
  | none => .invalidRequest "Invalid authorization header"
  | some (credential_part, signed_headers_part, signature) =>
    match strSplitChar '/' credential_part with
    | [access_key, date, region, service, request_type] =>
      if access_key ≠ cfg.access_key_id then .invalidAccessKeyId
      else if v4_calculated P cfg req date region service request_type signed_headers_part
          ≠ signature then .signatureDoesNotMatch
      else .ok
    | _ => .invalidRequest "Invalid credential format"

/-- The signature the verifier recomputes for a given Authorization header,
when the header parses (same pipeline as `verify_signature_v4`). -/
def v4_recomputed (P : HashPrims) (cfg : AuthConfig) (req : HttpReq)
    (authHeader : String) : Option String :=
  match v4_parse authHeader with
  | none => none
  | some (credential_part, signed_headers_part, _) =>
    match strSplitChar '/' credential_part with
    | [_, date, region, service, request_type] =>
      some (v4_calculated P cfg req date region service request_type signed_headers_part)
    | _ => none

/-- The signature the client provided in the Authorization header. -/
def v4_provided (authHeader : String) : Option String :=
  (v4_parse authHeader).map (fun t => t.2.2)

/-- The header-authentication path of the live server's `auth_middleware`
(main.rs 2891–2922): split the Authorization header on spaces, strip
`Credential=` once, take the part before the first `/` and then before the
first `,`, and allow the request iff that access key is configured.  The
signature itself is never recomputed.  (`true` = run the handler, `false` =
403.)  The presigned-query path of the middleware, main.rs 2817–2890, is not
involved in any claim. -/
def auth_middleware_header (access_keys : String → Option String)
    (authHeader : Option String) : Bool :=
  match authHeader with
  | none => false
  | some auth_str =>
    if strStartsWith auth_str "AWS4-HMAC-SHA256" then
      let parts := strSplitChar ' ' auth_str
      if 2 ≤ parts.length then
        match rust_strip_once (parts.getD 1 "") "Credential=" with
        | some credential =>
          let cred_parts := strSplitChar '/' credential
          let access_key := ((strSplitChar ',' (cred_parts.getD 0 "")).getD 0 "")
          (access_keys access_key).isSome
        | none => false
      else false
    else false

/-! ## Policy evaluator (policy_check.rs `check_policy_permission`, lines
5–163, and `is_ip_in_range`, lines 166–226).  The JSON shapes the evaluator
inspects are embedded as dedicated types; `serde_json` parsing itself is out
of scope (a parse failure denies, like an empty statement list). -/

/-- A JSON value that is either one string or an array of strings (the only
shapes the matchers accept; any other shape never matches). -/
inductive StrOrArr where
  | str (s : String)
  | arr (l : List String)
deriving DecidableEq

/-- The `Principal` shapes the evaluator distinguishes (policy_check.rs
24–38): a bare JSON string, an object with an `AWS` member, or anything
else. -/
inductive PrincipalV where
  | str (s : String)
  | awsObj (v : StrOrArr)
  | otherJson
deriving DecidableEq

/-- A `Condition` object: the value at `IpAddress."aws:SourceIp"` and at
`NotIpAddress."aws:SourceIp"`, when present (only these two paths are ever
read, policy_check.rs 84–143). -/
structure PolicyCondition where
  ipAddress : Option StrOrArr
  notIpAddress : Option StrOrArr
deriving DecidableEq

/-- One policy `Statement`. -/
structure PolicyStatement where
  effect : Option String
  principal : Option PrincipalV
  action : Option StrOrArr
  resource : Option StrOrArr
  condition : Option PolicyCondition
deriving DecidableEq

/-- One dotted decimal octet as `Ipv4Addr` parsing accepts it: digits only,
no leading zero, value ≤ 255. -/
def parseDecOctet (s : String) : Option Nat :=
  if s ≠ "" && s.toList.all Char.isDigit && (s = "0" || !strStartsWith s "0") then
    let v := s.toList.foldl (fun a c => a * 10 + (c.toNat - 48)) 0
    if v ≤ 255 then some v else none
  else none

/-- `Ipv4Addr::from_str`, as the `u32` value of the four octets.  (IPv6
addresses do not parse here; `is_ip_in_range` only proceeds on `IpAddr::V4`.) -/
def parseIpv4 (s : String) : Option Nat :=
  match (strSplitChar '.' s).mapM parseDecOctet with
  | some [a, b, c, d] => some (((a * 256 + b) * 256 + c) * 256 + d)
  | _ => none

/-- `u8::from_str` (for the CIDR prefix length): optional `+`, digits,
value ≤ 255. -/
def parseU8 (s : String) : Option Nat :=
  let t := if strStartsWith s "+" then s.drop 1 else s
  if t ≠ "" && t.toList.all Char.isDigit then
    let v := t.toList.foldl (fun a c => a * 10 + (c.toNat - 48)) 0
    if v ≤ 255 then some v else none
  else none

/-- `is_ip_in_range` (policy_check.rs 166–226): parse the client IP as IPv4;
with a `/` in the range, compare under the CIDR mask (`!((1u32 << (32-p)) - 1)`,
`0` when `p = 0`); otherwise require exact equality. -/
def is_ip_in_range (ip range : String) : Bool :=
  match parseIpv4 ip with
  | none => false
  | some client =>
    let network_str := (range.toList.takeWhile (· ≠ '/')).asString
    if network_str.length < range.length then
      -- CIDR notation: prefix_str[1..] is everything after the first '/'
      match parseU8 (range.drop (network_str.length + 1)) with
      | some prefix_len =>
        if prefix_len ≤ 32 then
          match parseIpv4 network_str with
          | some network =>
            let mask := if prefix_len = 0 then 0 else 2 ^ 32 - 2 ^ (32 - prefix_len)
            Nat.land client mask = Nat.land network mask
          | none => false
        else false
      | none => false
    else
      match parseIpv4 range with
      | some allowed => client = allowed
      | none => false

/-- Principal matcher (policy_check.rs 24–38): the JSON string `"*"` matches
everyone; an `AWS` member matches by exact string equality (single value or
any array element); everything else never matches. -/
def principal_match (p : Option PrincipalV) (principal : String) : Bool :=
  match p with
  | some (.str s) => s = "*"
  | some (.awsObj (.str s)) => s = principal
  | some (.awsObj (.arr l)) => l.any (· = principal)
  | some .otherJson => false
  | none => false

/-- One action pattern against the requested action (policy_check.rs 44–57):
exact match, the catch-all `s3:*`, or a trailing-`*` wildcard by prefix. -/
def action_pattern_match (act action : String) : Bool :=
  act = action || act = "s3:*" ||
    (strEndsWith act "*" && strStartsWith action (act.dropRight 1))

/-- Action matcher (policy_check.rs 41–59). -/
def action_match (a : Option StrOrArr) (action : String) : Bool :=
  match a with
  | some (.str act) => action_pattern_match act action
  | some (.arr l) => l.any (fun act => action_pattern_match act action)
  | none => false

/-- One resource pattern against the requested resource (policy_check.rs
66–78): exact match, the catch-all `*`, or a trailing-`*` wildcard. -/
def resource_pattern_match (res resource : String) : Bool :=
  res = resource || res = "*" ||
    (strEndsWith res "*" && strStartsWith resource (res.dropRight 1))

/-- Resource matcher (policy_check.rs 62–80). -/
def resource_match (r : Option StrOrArr) (resource : String) : Bool :=
  match r with
  | some (.str res) => resource_pattern_match res resource
  | some (.arr l) => l.any (fun res => resource_pattern_match res resource)
  | none => false

/-- Any of the ranges of an `aws:SourceIp` value contains the client IP. -/
def source_ip_any (v : StrOrArr) (clientIp : String) : Bool :=
  match v with
  | .str r => is_ip_in_range clientIp r
  | .arr l => l.any (fun r => is_ip_in_range clientIp r)

/-- Condition matcher (policy_check.rs 84–146): `all_conditions_met` starts
true; an `IpAddress` condition fails when the client IP is absent or outside
every allowed range; a `NotIpAddress` condition fails when the client IP is
present and inside a blocked range (an absent client IP leaves it met, as in
the source, which has no `else` there). -/
def condition_match (c : Option PolicyCondition) (clientIp : Option String) : Bool :=
  match c with
  | none => true
  | some cond =>
    let met := true
    let met := match cond.ipAddress with
      | some v =>
        match clientIp with
        | some ip => if source_ip_any v ip then met else false
        | none => false
      | none => met
    let met := match cond.notIpAddress with
      | some v =>
        match clientIp with
        | some ip => if source_ip_any v ip then false else met
        | none => met
      | none => met
    met

/-- All four matchers of one statement (policy_check.rs 148). -/
def statement_matches (st : PolicyStatement) (action resource principal : String)
    (clientIp : Option String) : Bool :=
  principal_match st.principal principal && action_match st.action action &&
    resource_match st.resource resource && condition_match st.condition clientIp

/-- `check_policy_permission` (policy_check.rs 5–163): iterate the statements
in order; on the first fully matching one, return according to its `Effect`
(`Allow` → allow, `Deny` → deny, any other effect falls through to the next
statement); default deny. -/
def check_policy_permission (stmts : List PolicyStatement)
    (action resource principal : String) (clientIp : Option String) : Bool :=
  match stmts with
  | [] => false
  | st :: rest =>
    if statement_matches st action resource principal clientIp then
      if st.effect.getD "" = "Allow" then true
      else if st.effect.getD "" = "Deny" then false
      else check_policy_permission rest action resource principal clientIp
    else check_policy_permission rest action resource principal clientIp

/-- Modelled from the spec (§4.4 "iterate statements in order; ... on the
first statement where all four are true, return `Allow` or `Deny` according
to `Effect`; otherwise default-deny"): the decision of the first fully
matching statement whose effect is `Allow` or `Deny`.  Used to state the
amended C3 as a refinement. -/
def firstDecision (stmts : List PolicyStatement)
    (action resource principal : String) (clientIp : Option String) : Option Bool :=
  match stmts with
  | [] => none
  | st :: rest =>
    if statement_matches st action resource principal clientIp &&
        (st.effect.getD "" = "Allow" || st.effect.getD "" = "Deny") then
      some (st.effect.getD "" = "Allow")
    else firstDecision rest action resource principal clientIp

/-! ## Multipart engine (main.rs `handle_object_put` part upload 2130–2186 and
`handle_object_post` completion 2245–2346) -/

/-- One in-flight `MultipartUpload` (main.rs 415–420): target bucket and key,
and the `HashMap<i32, UploadPart>` of staged parts, kept as its entry list
with pairwise-distinct part numbers.  Completion consumes only each part's
`data`, so a part is represented by its bytes. -/
structure MpUpload where
  bucket : String
  key : String
  parts : List (Int × Bytes)

/-- `upload.parts.insert(part_number, ...)` (main.rs 2138–2143): a
`HashMap::insert`, replacing any staged part with the same number (last
writer per part number wins). -/
def upload_part_insert (parts : List (Int × Bytes)) (part_number : Int)
    (data : Bytes) : List (Int × Bytes) :=
  (parts.filter (fun p => p.1 ≠ part_number)) ++ [(part_number, data)]

/-- Multipart side state: `state.multipart_uploads` and the on-disk staging
directories `<bucket>/.multipart/<upload_id>`. -/
structure MpState where
  uploads : String → Option MpUpload
  staging : String × String → Bool

/-- Result of completing a multipart upload: HTTP status and the ETag
returned in the XML (when the upload exists). -/
structure CompleteResult where
  status : Nat
  etag : Option String

/-- The completion branch of `handle_object_post` (main.rs 2245–2346):
remove the upload from `multipart_uploads` (404 when absent), sort its parts
ascending by part number, concatenate the part bodies in that order, write
the object and its sidecar with `etag = hex(md5(concatenation))`, remove the
staging directory, and insert the in-memory object record. -/
def complete_multipart (md5hex : Bytes → String) (s : Store) (mp : MpState)
    (upload_id : String) : CompleteResult × Store × MpState :=
  match mp.uploads upload_id with
  | none => ({ status := 404, etag := none }, s, mp)
  | some upload =>
    let parts := upload.parts.mergeSort (fun a b => a.1 ≤ b.1)
    let combined_data := (parts.map (fun p => p.2)).flatten
    let etag := md5hex combined_data
    let meta : ObjMeta := { etag := etag, size := combined_data.length, encryption := none }
    let bm0 := (s.buckets upload.bucket).getD newBucketMem
    let bm :=
      { bm0 with
        memObjects := mupd bm0.memObjects upload.key
          (some { size := combined_data.length, etag := etag }) }
    let s :=
      { s with
        objects := mupd s.objects (upload.bucket, upload.key) (some combined_data),
        metas := mupd s.metas (upload.bucket, upload.key) (some meta),
        buckets := mupd s.buckets upload.bucket (some bm) }
    let mp :=
      { uploads := mupd mp.uploads upload_id none,
        staging := fun p => if p = (upload.bucket, upload_id) then false else mp.staging p }
    ({ status := 200, etag := some etag }, s, mp)

/-! ## Quota manager (quota.rs `QuotaManager::new` 28–47,
`generate_quota_from_fs` 111–142, `check_quota` 154–162) -/

/-- `DEFAULT_QUOTA_BYTES` (quota.rs 16): 5 GiB. -/
def DEFAULT_QUOTA_BYTES : Nat := 5 * 1024 * 1024 * 1024

/-- `BucketQuota` (models.rs). -/
structure BucketQuota where
  max_size_bytes : Nat
  current_usage_bytes : Nat
  object_count : Nat
deriving DecidableEq

/-- The `QuotaManager` state (quota.rs 19–25): of its fields only `enabled`
matters to the claims.  Note the struct has *no* field holding a configured
quota limit. -/
structure QuotaManager where
  enabled : Bool
deriving DecidableEq

/-- `QuotaManager::new` (quota.rs 28–47): the parsed `BUCKET_QUOTA_BYTES`
environment value is bound to a local `default_quota` that is never stored
anywhere — the constructed manager carries no quota limit. -/
def QuotaManager.new (envBucketQuotaBytes : Option Nat) (enabled : Bool) :
    QuotaManager :=
  let default_quota := envBucketQuotaBytes.getD DEFAULT_QUOTA_BYTES
  let _ := default_quota
  { enabled := enabled }

/-- One regular file met by the `WalkDir` scan of a bucket: its (base) file
name and byte size. -/
structure FsFile where
  name : String
  size : Nat

/-- `generate_quota_from_fs` (quota.rs 111–142): sum the sizes of the files
that are neither hidden (leading `.`) nor sidecars (`.metadata` suffix), and
materialise the quota with `max_size_bytes` equal to the compile-time
`DEFAULT_QUOTA_BYTES`. -/
def generate_quota_from_fs (files : List FsFile) : BucketQuota :=
  let counted := files.filter
    (fun f => !strStartsWith f.name "." && !strEndsWith f.name ".metadata")
  { max_size_bytes := DEFAULT_QUOTA_BYTES,
    current_usage_bytes := (counted.map (fun f => f.size)).sum,
    object_count := counted.length }

/-- `QuotaManager::check_quota` (quota.rs 154–162): always allow when the
feature is disabled; otherwise admit `new_size` iff
`current_usage_bytes + new_size ≤ max_size_bytes` of the bucket's
materialised quota. -/
def check_quota (qm : QuotaManager) (quota : BucketQuota) (new_size : Nat) : Bool :=
  if !qm.enabled then true
  else quota.current_usage_bytes + new_size ≤ quota.max_size_bytes

/-! ## WAL sequence recovery (wal.rs `WALWriter::load_last_sequence` 215–267
and `WALWriter::new` 38–58).  File contents are modelled as `List Char`
(ASCII). -/

/-- Split a character stream the way repeated `BufRead::read_line` does: each
line includes its terminating newline; a final unterminated chunk is returned
as one more line; reading an empty stream yields no lines. -/
def splitLinesChars : List Char → List Char → List (List Char)
  | acc, [] => if acc = [] then [] else [acc.reverse]
  | acc, c :: rest =>
    if c = '\n' then (acc.reverse ++ ['\n']) :: splitLinesChars [] rest
    else splitLinesChars (c :: acc) rest

/-- `str::split('\t')` on characters (empty pieces kept). -/
def splitTabChars (l : List Char) : List (List Char) :=
  splitOnChar '\t' l

/-- `u64::from_str`: optional leading `+`, a nonempty run of decimal digits,
value below `2^64`. -/
def parse_u64 (s : List Char) : Option Nat :=
  let t := if s.head? = some '+' then s.tail else s
  if t ≠ [] && t.all Char.isDigit then
    let v := t.foldl (fun a c => a * 10 + (c.toNat - 48)) 0
    if v < 2 ^ 64 then some v else none
  else none

/-- `str::trim` on characters (ASCII model). -/
def trimChars (s : List Char) : List Char :=
  ((s.dropWhile Char.isWhitespace).reverse.dropWhile Char.isWhitespace).reverse

/-- The per-line extraction of the fallback scan (wal.rs 251–259): a line
contributes a sequence number when it has at least three tab-separated
fields, its second field is this node's id, and its third field parses as a
`u64`. -/
def walLineSeq (node line : List Char) : Option Nat :=
  let parts := splitTabChars line
  if 3 ≤ parts.length && parts.getD 1 [] = node then parse_u64 (parts.getD 2 [])
  else none

/-- The last `min(10 KiB, fileSize)` bytes of the WAL file (wal.rs 236–243). -/
def walTail10k (wal : List Char) : List Char :=
  let read_size := min 10240 wal.length
  if read_size < wal.length then wal.drop (wal.length - read_size) else wal

/-- The fallback scan of `load_last_sequence` (wal.rs 231–266): read the last
10 KiB, discard the first line read (the source skips it unconditionally,
even when the whole file was read from offset 0), fold the maximum sequence
of this node over the remaining lines, and return `max + 1` — but only when
that maximum is positive; otherwise `None`. -/
def walFallbackScan (wal node : List Char) : Option Nat :=
  let lines := splitLinesChars [] (walTail10k wal)
  let seqs := lines.tail.filterMap (walLineSeq node)
  let max_sequence := seqs.foldl max 0
  if 0 < max_sequence then some (max_sequence + 1) else none

/-- `WALWriter::load_last_sequence` (wal.rs 215–267): `none` when `wal.log`
does not exist; else the parsed `wal.sequence` state file when present and
parseable; else the fallback scan. -/
def load_last_sequence (seqFile : Option (List Char)) (walExists : Bool)
    (wal node : List Char) : Option Nat :=
  if !walExists then none
  else
    match seqFile with
    | some contents =>
      match parse_u64 (trimChars contents) with
      | some seq => some seq
      | none => walFallbackScan wal node
    | none => walFallbackScan wal node

/-- `WALWriter::new` (wal.rs 52–55): the startup sequence is
`load_last_sequence(..).unwrap_or(0)`. -/
def wal_initial_sequence (seqFile : Option (List Char)) (walExists : Bool)
    (wal node : List Char) : Nat :=
  (load_last_sequence seqFile walExists wal node).getD 0

/-- Every sequence number recorded for this node anywhere in the log (used to
state C8's "strictly greater than every sequence already in the log"). -/
def walAllSeqs (wal node : List Char) : List Nat :=
  (splitLinesChars [] wal).filterMap (walLineSeq node)

/-! ## Replicator batch optimisation (bin/replicator.rs
`Replicator::optimize_batch` 305–333 and `send_to_node` 335–445) -/

/-- The `WALEntry` fields `optimize_batch` reads. -/
structure REntry where
  operation : String
  bucket : String
  key : String
deriving DecidableEq

/-- The distinct `(bucket, key)` pairs of a batch in first-occurrence order.
(The source groups into a `HashMap`, whose iteration order is unspecified;
every claim is about the per-key content of the output, which does not
depend on the group order.) -/
def firstKeys (l : List (String × String)) : List (String × String) :=
  l.foldl (fun acc k => if k ∈ acc then acc else acc ++ [k]) []

/-- `Replicator::optimize_batch` (replicator.rs 305–333): group the batch by
`(bucket, key)` (each group keeps batch order); drop every group that
contains both a `PUT` and a `DELETE`; from every other group keep only its
last entry. -/
def optimize_batch (entries : List REntry) : List REntry :=
  let keys := firstKeys (entries.map (fun e => (e.bucket, e.key)))
  keys.foldr
    (fun bk acc =>
      let ops := entries.filter (fun e => (e.bucket, e.key) = bk)
      let has_create := ops.any (fun e => e.operation = "PUT")
      let has_delete := ops.any (fun e => e.operation = "DELETE")
      if has_create && has_delete then acc
      else
        match ops.getLast? with
        | some last_op => last_op :: acc
        | none => acc)
    []

/-- Applying one replicated entry to a target node's object map
(`send_to_node`, replicator.rs 357–403): a `PUT` copies the source node's
current file when it exists; a `DELETE` removes the target file.  Bucket and
metadata operations do not touch object keys. -/
def applyEntry (source : String × String → Option Bytes)
    (target : String × String → Option Bytes) (e : REntry) :
    String × String → Option Bytes :=
  if e.operation = "PUT" then
    match source (e.bucket, e.key) with
    | some v => mupd target (e.bucket, e.key) (some v)
    | none => target
  else if e.operation = "DELETE" then
    mupd target (e.bucket, e.key) none
  else target

/-- Apply a batch of replicated entries in order. -/
def applyBatch (source : String × String → Option Bytes)
    (entries : List REntry) (target : String × String → Option Bytes) :
    String × String → Option Bytes :=
  entries.foldl (applyEntry source) target

/-! ## Concrete instances used by witnesses and counterexamples -/

/-- A cipher with `dec ∘ enc = some`, whose ciphertext differs from every
plaintext (prepends one byte). -/
def sampleCipher : Cipher := { enc := fun d => 100 :: d, dec := fun d => d.tail? }

/-- A stand-in for `hex(md5(..))` in concrete evaluations. -/
def constHex : Bytes → String := fun _ => "etag"

/-- A 113-byte ASCII body that looks like AWS chunk framing:
`"1;chunk-signature=aa\r\nZ"` followed by ninety `b`s.  Its first 100 bytes
contain `";chunk-signature="`, so `put_object` chunk-decodes it — to the
single byte `Z`. -/
def c1Body : Bytes :=
  [49] ++ chunkSigBytes ++ [97, 97] ++ [13, 10] ++ [90] ++ List.replicate 90 98

/-- Hash primitives for concrete signature evaluations: the final hex
encoding is the constant `"sig"`, so the recomputed signature of every
request is `"sig"`. -/
def hashPrims0 : HashPrims :=
  { strBytes := fun _ => [], sha256hex := fun _ => "",
    hmac := fun _ _ => [], hexenc := fun _ => "sig" }

/-- A concrete credential configuration. -/
def authCfg0 : AuthConfig := { access_key_id := "AK", secret_access_key := "SK" }

/-- A concrete mutating request with no extra headers. -/
def httpReq0 : HttpReq :=
  { method := "PUT", uriPath := "/b/k", uriQuery := none, headers := fun _ => none }

/-- An Authorization header whose provided signature equals the one
`hashPrims0` recomputes. -/
def authHdrOk : String :=
  "AWS4-HMAC-SHA256 Credential=AK/d/r/s3/aws4_request, SignedHeaders=host, Signature=sig"

/-- An Authorization header whose provided signature `00` differs from the
recomputed `sig`. -/
def authHdrBad : String :=
  "AWS4-HMAC-SHA256 Credential=AK/d/r/s3/aws4_request, SignedHeaders=host, Signature=00"

/-- The configured access keys of the live server: `AK` is known. -/
def accessKeys0 : String → Option String := mupd mempty "AK" (some "SECRET")

/-- A statement allowing everyone everything: `Effect: Allow`,
`Principal: "*"`, `Action: "s3:*"`, `Resource: "*"`, no condition. -/
def allowStarStmt : PolicyStatement :=
  { effect := some "Allow", principal := some (.str "*"),
    action := some (.str "s3:*"), resource := some (.str "*"), condition := none }

/-- The same statement with `Effect: Deny`. -/
def denyStarStmt : PolicyStatement :=
  { effect := some "Deny", principal := some (.str "*"),
    action := some (.str "s3:*"), resource := some (.str "*"), condition := none }

/-- A multipart state with one in-flight upload `u1` for `b/k` whose parts
were uploaded out of order, and its staging directory present. -/
def mpState0 : MpState :=
  { uploads := mupd mempty "u1"
      (some { bucket := "b", key := "k",
              parts := upload_part_insert (upload_part_insert
                (upload_part_insert [] 2 [66]) 1 [65]) 3 [67] }),
    staging := fun p => p = ("b", "u1") }

/-- A store whose bucket `b` has versioning `Enabled` and AES256 bucket
encryption configured in memory. -/
def verStore : Store :=
  { emptyStore with
    buckets := mupd mempty "b"
      (some { versioningStatus := some "Enabled", encryption := some "AES256",
              memObjects := mempty }) }

/-- A WAL log smaller than 10 KiB holding exactly one complete record of node
`nodeA`, with sequence number 5. -/
def c8wal : List Char := "PUT\tnodeA\t5\t111\tbkt\tkey\t3\te\n".toList

/-- The node id of the single-record WAL log. -/
def c8node : List Char := "nodeA".toList

/-- A two-record WAL log of node `nodeA` with sequences 5 and 7. -/
def c8wal2 : List Char :=
  "PUT\tnodeA\t5\t111\tbkt\tkey\t3\te\nPUT\tnodeA\t7\t112\tbkt\tkey\t4\tf\n".toList

/-- The replicator source node currently stores `[2]` at `b/k` (the bytes of
the batch's PUT). -/
def replSource : String × String → Option Bytes := mupd mempty ("b", "k") (some [2])

/-- The replication target still holds the stale bytes `[1]` at `b/k`. -/
def replTarget : String × String → Option Bytes := mupd mempty ("b", "k") (some [1])

/-- A batch that deletes `b/k` and then re-puts it: the key has both a PUT
and a DELETE entry, so `optimize_batch` drops it entirely. -/
def replBatch : List REntry :=
  [{ operation := "DELETE", bucket := "b", key := "k" },
   { operation := "PUT", bucket := "b", key := "k" }]

/-- A 114-byte body whose chunk-size field is UTF-8 NBSP (`C2 A0`) followed
by `"31"`: `NBSP ++ "31;chunk-signature=aa\r\n" ++ 49 x's ++ 40 y's`.
Rust lossy-decodes the field to `"  31"`, `str::trim` removes the
Unicode NBSP, and the chunk size parses as `0x31 = 49`, so the server stores
only the 49 `x` bytes. -/
def nbspBody : Bytes :=
  [194, 160, 51, 49] ++ chunkSigBytes ++ [97, 97] ++ [13, 10] ++
    List.replicate 49 120 ++ List.replicate 40 121

/-! ## Helper lemmas -/

theorem mupd_same {α β : Type} [DecidableEq α] (m : α → Option β) (a : α)
    (v : Option β) : mupd m a v a = v := by
  simp [mupd]

theorem mupd_other {α β : Type} [DecidableEq α] (m : α → Option β) (a b : α)
    (v : Option β) (h : b ≠ a) : mupd m a v b = m b := by
  simp [mupd, h]

/-- Fidelity of the Unicode trim in the chunk-size parse: the NBSP-prefixed
size field of `nbspBody` is trimmed and parsed (chunk size 49), so the model,
like the server, decodes the body down to the 49 `x` bytes — the heuristic
does not leave this body unchanged. -/
theorem parse_chunked_unicode_trim :
    parse_chunked_data nbspBody = List.replicate 49 120 ∧
    decodeBody nbspBody ≠ nbspBody := by
  refine ⟨by decide, by decide⟩

theorem decodeBody_eq_self (body : Bytes)
    (hbody : body.length ≤ 100 ∨ containsSeq (body.take 100) chunkSigBytes = false ∨
      parse_chunked_data body = body) :
    decodeBody body = body := by
  unfold decodeBody
  rcases hbody with h | h | h
  · have h1 : ¬(100 < body.length) := by omega
    simp [h1]
  · simp [h]
  · split <;> simp [h]

/-! ## Claim C1 -/

/-- Claim C1, as stated, is false: the concrete 113-byte body `c1Body`
(first 100 bytes contain `";chunk-signature="`) is chunk-decoded by
`put_object`, and the subsequent `get_object` returns the single byte `Z`
with status 200 — not the original body. -/
theorem C1_counterexample :
    (get_object (put_object constHex sampleCipher "v" emptyStore "b" "k" c1Body).2
        "b" "k").status = 200 ∧
    (get_object (put_object constHex sampleCipher "v" emptyStore "b" "k" c1Body).2
        "b" "k").body = [90] ∧
    c1Body ≠ [90] := by
  refine ⟨by decide, by decide, by decide⟩

/-- Claim C1, amended: the PUT/GET round-trip returns the original bytes with
status 200, independent of bucket encryption, for every body that the
chunked-transfer heuristic leaves unchanged — bodies of at most 100 bytes,
bodies whose first 100 bytes do not contain `";chunk-signature="`, and bodies
on which `parse_chunked_data` is the identity.  (The encryption hypothesis
states that AES-GCM decryption under the request's key and nonce inverts
encryption.) -/
theorem C1_roundtrip (md5hex : Bytes → String) (cipher : Cipher) (vid : String)
    (s : Store) (b k : String) (body : Bytes)
    (hdec : ∀ d, cipher.dec (cipher.enc d) = some d)
    (hbody : body.length ≤ 100 ∨ containsSeq (body.take 100) chunkSigBytes = false ∨
      parse_chunked_data body = body) :
    get_object (put_object md5hex cipher vid s b k body).2 b k =
      { status := 200, body := body } := by
  have hdb : decodeBody body = body := decodeBody_eq_self body hbody
  by_cases henc : ((s.buckets b).getD newBucketMem).encryption = some "AES256"
  · simp [put_object, get_object, hdb, henc, mupd, hdec]
  · simp [put_object, get_object, hdb, henc, mupd]

/-- Witness for C1's amended theorem at a concrete input: a 3-byte body in an
encrypted-bucket store round-trips. -/
theorem C1_roundtrip_witness :
    get_object (put_object constHex sampleCipher "v"
        { emptyStore with
          buckets := mupd mempty "b"
            (some { versioningStatus := none, encryption := some "AES256",
                    memObjects := mempty }) }
        "b" "k" [1, 2, 3]).2 "b" "k" = { status := 200, body := [1, 2, 3] } :=
  C1_roundtrip constHex sampleCipher "v" _ "b" "k" [1, 2, 3]
    (fun d => rfl) (Or.inl (by decide))

/-! ## Claim C2 -/

set_option maxRecDepth 8000 in
/-- Claim C2, as stated, is false for the running server: the concrete
request `httpReq0` carries the Authorization header `authHdrBad`, whose
provided signature `00` differs from the recomputed signature (under
`hashPrims0` every recomputed signature is `sig`, and `verify_signature_v4`
itself classifies the header as `SignatureDoesNotMatch`) — yet the live
middleware `auth_middleware_header` admits the request, because it only
checks that the access key `AK` exists and never recomputes the signature. -/
theorem C2_counterexample :
    verify_signature_v4 hashPrims0 authCfg0 httpReq0 authHdrBad =
      .signatureDoesNotMatch ∧
    auth_middleware_header accessKeys0 (some authHdrBad) = true := by
  constructor
  · decide
  · decide

/-- Claim C2, amended: the signature-verification module
(`AuthMiddleware::verify_signature_v4`, auth.rs) does satisfy the contract —
it returns `Ok` only when the signature recomputed from the request equals
the provided one.  (The live server, however, authenticates through
`auth_middleware` in main.rs, which accepts any `AWS4-HMAC-SHA256` request
whose access key exists, so a mismatched signature is not rejected with 403;
see the counterexample.) -/
theorem C2_verify_ok_implies_match (P : HashPrims) (cfg : AuthConfig)
    (req : HttpReq) (authHeader : String)
    (hok : verify_signature_v4 P cfg req authHeader = .ok) :
    ∃ sig, v4_provided authHeader = some sig ∧
      v4_recomputed P cfg req authHeader = some sig := by
  unfold verify_signature_v4 at hok
  cases hp : v4_parse authHeader with
  | none => simp [hp] at hok
  | some t =>
    obtain ⟨cred, sh, sig⟩ := t
    simp only [hp] at hok
    refine ⟨sig, by simp [v4_provided, hp], ?_⟩
    unfold v4_recomputed
    simp only [hp]
    rcases hcp : strSplitChar '/' cred with
        _ | ⟨a0, _ | ⟨a1, _ | ⟨a2, _ | ⟨a3, _ | ⟨a4, _ | ⟨a5, t5⟩⟩⟩⟩⟩⟩ <;>
      simp only [hcp] at hok ⊢ <;> try simp at hok
    by_cases h1 : a0 = cfg.access_key_id
    · simp only [h1, ne_eq, not_true_eq_false, if_false, ite_not] at hok
      by_cases h2 : v4_calculated P cfg req a1 a2 a3 a4 sh = sig
      · simp [h2]
      · simp [h2] at hok
    · simp [h1] at hok

set_option maxRecDepth 8000 in
/-- Witness for C2's amended theorem: `authHdrOk` (provided signature `sig`)
verifies under `hashPrims0`, and both the provided and the recomputed
signature are `sig`. -/
theorem C2_verify_ok_implies_match_witness :
    ∃ sig, v4_provided authHdrOk = some sig ∧
      v4_recomputed hashPrims0 authCfg0 httpReq0 authHdrOk = some sig :=
  C2_verify_ok_implies_match hashPrims0 authCfg0 httpReq0 authHdrOk (by decide)

/-! ## Claim C3 -/

/-- Claim C3, as stated, is false: in the two-statement policy
`[allowStarStmt, denyStarStmt]` the Deny statement fully matches the request
(`s3:GetObject` by principal `client1` on `arn:aws:s3:::b/k`), yet evaluation
returns `true` (access granted), because the earlier matching Allow decides
first. -/
theorem C3_counterexample :
    check_policy_permission [allowStarStmt, denyStarStmt] "s3:GetObject"
      "arn:aws:s3:::b/k" "client1" none = true ∧
    statement_matches denyStarStmt "s3:GetObject" "arn:aws:s3:::b/k" "client1"
      none = true ∧
    denyStarStmt.effect = some "Deny" := by
  refine ⟨by decide, by decide, by decide⟩

/-- Claim C3, amended: policy evaluation is first-match-wins, not
Deny-overrides.  `check_policy_permission` returns the decision of the first
statement (in document order) whose principal, action, resource, and
condition matchers all match and whose `Effect` is `Allow` or `Deny` —
`true` for `Allow`, `false` for `Deny` — and `false` when no such statement
exists.  A `Deny` therefore overrides only *later* `Allow` statements. -/
theorem C3_first_match_wins (stmts : List PolicyStatement)
    (action resource principal : String) (clientIp : Option String) :
    check_policy_permission stmts action resource principal clientIp =
      (firstDecision stmts action resource principal clientIp).getD false := by
  induction stmts with
  | nil => rfl
  | cons st rest ih =>
    unfold check_policy_permission firstDecision
    by_cases hm : statement_matches st action resource principal clientIp = true
    · by_cases ha : st.effect.getD "" = "Allow"
      · simp [hm, ha]
      · by_cases hd : st.effect.getD "" = "Deny"
        · simp [hm, ha, hd]
        · simp [hm, ha, hd, ih]
    · simp [hm, ih]

/-! ## Claim C4 -/

theorem mergeSortKeyed_eq (parts l : List (Int × Bytes)) (hperm : parts.Perm l)
    (hsorted : l.Pairwise (fun a b => a.1 < b.1)) :
    parts.mergeSort (fun a b => a.1 ≤ b.1) = l := by
  have hperm2 : (parts.mergeSort (fun a b => a.1 ≤ b.1)).Perm l :=
    (List.mergeSort_perm parts _).trans hperm
  have hsorted2 : (parts.mergeSort (fun a b => a.1 ≤ b.1)).Pairwise
      (fun a b : Int × Bytes => a.1 ≤ b.1) := by
    have h := @List.sorted_mergeSort (Int × Bytes)
      (fun a b => decide (a.1 ≤ b.1))
      (by intro a b c hab hbc; simp only [decide_eq_true_eq] at hab hbc ⊢; omega)
      (by intro a b; simp only [Bool.or_eq_true, decide_eq_true_eq]; omega)
      parts
    exact h.imp (by intro a b hab; simpa using hab)
  have hnodl : (l.map Prod.fst).Nodup := by
    refine List.pairwise_map.mpr (hsorted.imp ?_)
    intro a b h
    exact ne_of_lt h
  have hnodm : ((parts.mergeSort (fun a b => a.1 ≤ b.1)).map Prod.fst).Nodup :=
    ((hperm2.map Prod.fst).nodup_iff).mpr hnodl
  have hstrict : (parts.mergeSort (fun a b => a.1 ≤ b.1)).Pairwise
      (fun a b : Int × Bytes => a.1 < b.1) := by
    have hne := List.pairwise_map.mp hnodm
    exact (hsorted2.and hne).imp (fun h => lt_of_le_of_ne h.1 h.2)
  haveI : IsAntisymm (Int × Bytes) (fun a b => a.1 < b.1) :=
    ⟨fun a b h1 h2 => absurd (lt_trans h1 h2) (lt_irrefl _)⟩
  exact List.eq_of_perm_of_sorted hperm2 hstrict hsorted

/-- Claim C4, confirmed: completing a multipart upload whose parts table is
(any permutation of) the key-sorted list `l` writes an object equal to the
concatenation of the part bodies in ascending part-number order, returns
status 200 with `ETag = hex(md5)` of that concatenation, removes the upload
from the table and the staging directory `<bucket>/.multipart/<upload_id>`. -/
theorem C4_complete_multipart (md5hex : Bytes → String) (s : Store)
    (mp : MpState) (uid : String) (u : MpUpload) (l : List (Int × Bytes))
    (hu : mp.uploads uid = some u) (hperm : u.parts.Perm l)
    (hsorted : l.Pairwise (fun a b => a.1 < b.1)) :
    (complete_multipart md5hex s mp uid).1.status = 200 ∧
    (complete_multipart md5hex s mp uid).1.etag =
      some (md5hex ((l.map (fun p => p.2)).flatten)) ∧
    (complete_multipart md5hex s mp uid).2.1.objects (u.bucket, u.key) =
      some ((l.map (fun p => p.2)).flatten) ∧
    (complete_multipart md5hex s mp uid).2.2.uploads uid = none ∧
    (complete_multipart md5hex s mp uid).2.2.staging (u.bucket, uid) = false := by
  have hms := mergeSortKeyed_eq u.parts l hperm hsorted
  refine ⟨?_, ?_, ?_, ?_, ?_⟩ <;> simp [complete_multipart, hu, hms, mupd]

/-- Witness for C4 at a concrete upload: parts 2, 1, 3 (bodies `B`, `A`, `C`)
staged in that order reassemble to `A||B||C = [65, 66, 67]`. -/
theorem C4_complete_multipart_witness :
    (complete_multipart constHex emptyStore mpState0 "u1").1.status = 200 ∧
    (complete_multipart constHex emptyStore mpState0 "u1").1.etag =
      some (constHex (([(1, ([65] : Bytes)), (2, [66]), (3, [67])].map
        (fun p => p.2)).flatten)) ∧
    (complete_multipart constHex emptyStore mpState0 "u1").2.1.objects ("b", "k") =
      some (([(1, ([65] : Bytes)), (2, [66]), (3, [67])].map (fun p => p.2)).flatten) ∧
    (complete_multipart constHex emptyStore mpState0 "u1").2.2.uploads "u1" = none ∧
    (complete_multipart constHex emptyStore mpState0 "u1").2.2.staging ("b", "u1") =
      false :=
  C4_complete_multipart constHex emptyStore mpState0 "u1"
    { bucket := "b", key := "k",
      parts := upload_part_insert (upload_part_insert
        (upload_part_insert [] 2 [66]) 1 [65]) 3 [67] }
    [(1, [65]), (2, [66]), (3, [67])] rfl (by decide) (by decide)

/-! ## Claim C5 -/

/-- Claim C5, as stated, is false: deleting a key for which no object file,
no sidecar, and no in-memory entry exists returns 404, not 204 — on the
empty store, `DELETE b/x` answers 404. -/
theorem C5_counterexample : (delete_object emptyStore "b" "x").1 = 404 := by
  decide

/-- Claim C5, amended: for a plain key (not a prefix), DELETE returns 204
exactly when at least one of the object file, the sidecar, or the in-memory
entry existed, and 404 when none did.  Hence deleting the same absent key
twice returns 404 both times, and delete-after-put returns 204 then 404. -/
theorem C5_delete_status (s : Store) (b k : String)
    (hk : strEndsWith k "/" = false) (hd : s.dirs (b, k) = false) :
    (delete_object s b k).1 =
      if (s.objects (b, k)).isSome ∨ (s.metas (b, k)).isSome ∨
          (∃ bm, s.buckets b = some bm ∧ (bm.memObjects k).isSome)
      then 204 else 404 := by
  unfold delete_object
  cases hb : s.buckets b with
  | none =>
    rcases ho : s.objects (b, k) with _ | v <;>
      rcases hm : s.metas (b, k) with _ | m <;>
        simp [hk, hd, hb, ho, hm]
  | some bm =>
    rcases hmem : bm.memObjects k with _ | mo <;>
      rcases ho : s.objects (b, k) with _ | v <;>
        rcases hm : s.metas (b, k) with _ | m <;>
          simp [hk, hd, hb, hmem, ho, hm]

/-- Witness for C5's amended theorem on the empty store: nothing exists for
`b/x`, and the status is 404. -/
theorem C5_delete_status_witness :
    (delete_object emptyStore "b" "x").1 =
      if (emptyStore.objects ("b", "x")).isSome ∨
          (emptyStore.metas ("b", "x")).isSome ∨
          (∃ bm, emptyStore.buckets "b" = some bm ∧ (bm.memObjects "x").isSome)
      then 204 else 404 :=
  C5_delete_status emptyStore "b" "x" (by decide) (by decide)

/-! ## Claim C6 -/

/-- Claim C6 is right about the intent and the code is wrong:
`QuotaManager::new` parses `BUCKET_QUOTA_BYTES` into a local that is never
stored, and `generate_quota_from_fs` hard-codes
`max_size_bytes = DEFAULT_QUOTA_BYTES` (5 GiB).  With
`BUCKET_QUOTA_BYTES=1024` and a bucket already holding 600 bytes, the quota
materialised by filesystem scan has limit 5368709120 (not 1024), and
`check_quota(b, 500)` returns `true` — the 500-byte PUT is admitted instead
of being rejected with 507. -/
theorem C6_env_quota_dropped :
    check_quota (QuotaManager.new (some 1024) true)
      (generate_quota_from_fs [{ name := "a", size := 600 }]) 500 = true ∧
    (generate_quota_from_fs [{ name := "a", size := 600 }]).max_size_bytes =
      5368709120 ∧
    (generate_quota_from_fs [{ name := "a", size := 600 }]).current_usage_bytes =
      600 := by
  refine ⟨by decide, by decide, by decide⟩

/-! ## Claim C7 -/

/-- Claim C7, as stated, is false: on a bucket with versioning `Enabled` and
AES256 encryption, `put_object` writes the *plaintext* `[1, 2, 3]` into
`.versions/<k>/<vid>` while the primary object file holds the ciphertext
`[100, 1, 2, 3]` (a different byte string), and writes no
`<vid>.metadata` sidecar next to the version; only the
`x-amz-version-id` header is as claimed. -/
theorem C7_counterexample :
    (put_object constHex sampleCipher "v" verStore "b" "k" [1, 2, 3]).2.versionFiles
      ("b", "k", "v") = some [1, 2, 3] ∧
    (put_object constHex sampleCipher "v" verStore "b" "k" [1, 2, 3]).2.objects
      ("b", "k") = some [100, 1, 2, 3] ∧
    ((put_object constHex sampleCipher "v" verStore "b" "k" [1, 2, 3]).2.versionMetas
      ("b", "k", "v")).isNone = true ∧
    (put_object constHex sampleCipher "v" verStore "b" "k" [1, 2, 3]).1.versionId =
      some "v" := by
  refine ⟨by decide, by decide, by decide, by decide⟩

/-- Claim C7, amended: with versioning `Enabled`, `put_object` writes the
*plaintext* (chunk-decoded) body into `.versions/<k>/<vid>` — not the
primary's representation: when AES256 bucket encryption is active the primary
file holds `encrypt(body)` while the version holds `body` — writes no
per-version sidecar (the version-metadata store is untouched), and returns
`x-amz-version-id: <vid>`. -/
theorem C7_version_plaintext (md5hex : Bytes → String) (cipher : Cipher)
    (vid : String) (s : Store) (b k : String) (body : Bytes)
    (hv : (((s.buckets b).getD newBucketMem).versioningStatus.orElse
        (fun _ => s.versioningFile b)) = some "Enabled") :
    (put_object md5hex cipher vid s b k body).2.versionFiles (b, k, vid) =
      some (decodeBody body) ∧
    (put_object md5hex cipher vid s b k body).1.versionId = some vid ∧
    (put_object md5hex cipher vid s b k body).2.versionMetas = s.versionMetas ∧
    (((s.buckets b).getD newBucketMem).encryption = some "AES256" →
      (put_object md5hex cipher vid s b k body).2.objects (b, k) =
        some (cipher.enc (decodeBody body))) := by
  refine ⟨?_, ?_, ?_, fun henc => ?_⟩ <;>
    simp [put_object, hv, mupd]
  simp [henc]

/-- Witness for C7's amended theorem on `verStore` (versioning `Enabled`,
AES256 active): version file plaintext, version-id header, no version
sidecar, encrypted primary. -/
theorem C7_version_plaintext_witness :
    (put_object constHex sampleCipher "v" verStore "b" "k" [7, 8]).2.versionFiles
      ("b", "k", "v") = some (decodeBody [7, 8]) ∧
    (put_object constHex sampleCipher "v" verStore "b" "k" [7, 8]).1.versionId =
      some "v" ∧
    (put_object constHex sampleCipher "v" verStore "b" "k" [7, 8]).2.versionMetas =
      verStore.versionMetas ∧
    (((verStore.buckets "b").getD newBucketMem).encryption = some "AES256" →
      (put_object constHex sampleCipher "v" verStore "b" "k" [7, 8]).2.objects
        ("b", "k") = some (sampleCipher.enc (decodeBody [7, 8]))) :=
  C7_version_plaintext constHex sampleCipher "v" verStore "b" "k" [7, 8] (by decide)

/-! ## Claim C8 -/

theorem init_le_foldl_max (l : List Nat) (b : Nat) : b ≤ l.foldl max b := by
  induction l generalizing b with
  | nil => exact le_refl b
  | cons x xs ih => exact le_trans (le_max_left b x) (ih (max b x))

theorem mem_le_foldl_max (l : List Nat) (a : Nat) :
    ∀ b, a ∈ l → a ≤ l.foldl max b := by
  induction l with
  | nil => intro b h; cases h
  | cons x xs ih =>
    intro b h
    rcases List.mem_cons.mp h with h | h
    · subst h
      exact le_trans (le_max_right b a) (init_le_foldl_max xs (max b a))
    · exact ih (max b x) h

/-- Claim C8, as stated, is false on small files: `c8wal` is a complete
single-record log (well under 10 KiB) of node `nodeA` with sequence 5, yet
the recovered startup sequence is 0 — the scan discards the first line even
when the whole file was read from offset 0, finds no remaining record, and
`load_last_sequence` falls back to `unwrap_or(0)`; 0 is not strictly greater
than the logged sequence 5. -/
theorem C8_counterexample :
    wal_initial_sequence none true c8wal c8node = 0 ∧
    5 ∈ walAllSeqs c8wal c8node ∧
    ¬ 5 < wal_initial_sequence none true c8wal c8node := by
  refine ⟨by decide, by decide, by decide⟩

/-- Claim C8, amended: the mechanism is as described (state file first, else
scan the last `min(10 KiB, fileSize)` bytes, discard the first line read —
unconditionally, so on a file smaller than 10 KiB the first *complete* record
is discarded too — and use `max + 1` of the remaining records of this node,
falling back to 0 when no positive sequence is found).  The strictly-greater
guarantee holds only for the sequences on lines after the first: for a log of
at most 10 KiB, every positive sequence of this node found on a non-first
line is strictly below the recovered startup sequence. -/
theorem C8_recover_after_first (wal node : List Char)
    (hsize : wal.length ≤ 10240) (s : Nat)
    (hs : s ∈ (splitLinesChars [] wal).tail.filterMap (walLineSeq node))
    (hpos : 0 < s) :
    s < wal_initial_sequence none true wal node := by
  have htail : walTail10k wal = wal := by
    unfold walTail10k
    have h1 : min 10240 wal.length = wal.length := by omega
    simp [h1]
  unfold wal_initial_sequence load_last_sequence walFallbackScan
  rw [htail]
  have hle : s ≤ ((splitLinesChars [] wal).tail.filterMap (walLineSeq node)).foldl
      max 0 := mem_le_foldl_max _ s 0 hs
  have hM : 0 < ((splitLinesChars [] wal).tail.filterMap (walLineSeq node)).foldl
      max 0 := lt_of_lt_of_le hpos hle
  simp only [Bool.not_true, if_pos hM]
  simp [hM]
  omega

/-- Witness for C8's amended theorem: in the two-record log `c8wal2`, the
sequence 7 sits on the second line, and the recovered startup sequence 8 is
strictly greater. -/
theorem C8_recover_after_first_witness :
    7 < wal_initial_sequence none true c8wal2 c8node :=
  C8_recover_after_first c8wal2 c8node (by decide) 7 (by decide) (by decide)

/-! ## Claim C9 -/

theorem foldl_firstKeys_mem (l : List (String × String)) :
    ∀ (acc : List (String × String)) (x : String × String),
      (x ∈ l.foldl (fun acc k => if k ∈ acc then acc else acc ++ [k]) acc) ↔
        (x ∈ acc ∨ x ∈ l) := by
  induction l with
  | nil => intro acc x; simp
  | cons k ks ih =>
    intro acc x
    simp only [List.foldl_cons]
    rw [ih]
    by_cases hk : k ∈ acc
    · simp only [hk, if_true, List.mem_cons]
      constructor
      · rintro (h | h)
        · exact Or.inl h
        · exact Or.inr (Or.inr h)
      · rintro (h | h | h)
        · exact Or.inl h
        · exact Or.inl (h ▸ hk)
        · exact Or.inr h
    · simp only [hk, if_false, List.mem_append, List.mem_singleton, List.mem_cons]
      tauto

theorem mem_firstKeys (l : List (String × String)) (x : String × String) :
    x ∈ firstKeys l ↔ x ∈ l := by
  unfold firstKeys
  rw [foldl_firstKeys_mem l [] x]
  simp

theorem foldl_firstKeys_nodup (l : List (String × String)) :
    ∀ acc : List (String × String), acc.Nodup →
      (l.foldl (fun acc k => if k ∈ acc then acc else acc ++ [k]) acc).Nodup := by
  induction l with
  | nil => intro acc h; simpa
  | cons k ks ih =>
    intro acc h
    simp only [List.foldl_cons]
    by_cases hk : k ∈ acc
    · rw [if_pos hk]; exact ih acc h
    · rw [if_neg hk]
      refine ih _ (List.nodup_append.mpr ⟨h, List.nodup_singleton k, ?_⟩)
      exact List.disjoint_singleton.mpr hk

theorem nodup_firstKeys (l : List (String × String)) : (firstKeys l).Nodup :=
  foldl_firstKeys_nodup l [] List.nodup_nil

/-- Claim C9, amended: per key, `optimize_batch` behaves exactly as the spec's
mechanism says — for every `(bucket, key)`, the entries of the optimised
batch for that key are: none when the key's batch entries contain both a
`PUT` and a `DELETE`, and otherwise exactly the last batch entry for that
key.  (The further consequence claimed — that applying the optimised batch
leaves every key in the same final state as the full batch — fails for
dropped keys; see the counterexample.) -/
theorem C9_optimize_per_key (entries : List REntry) (b k : String) :
    (optimize_batch entries).filter (fun e => (e.bucket, e.key) = (b, k)) =
      (if (entries.filter (fun e => (e.bucket, e.key) = (b, k))).any
            (fun e => e.operation = "PUT") &&
          (entries.filter (fun e => (e.bucket, e.key) = (b, k))).any
            (fun e => e.operation = "DELETE")
       then []
       else ((entries.filter (fun e => (e.bucket, e.key) = (b, k))).getLast?).toList) := by
  have hob : optimize_batch entries =
      (firstKeys (entries.map fun e => (e.bucket, e.key))).foldr
        (fun bk acc =>
          if (entries.filter (fun e => (e.bucket, e.key) = bk)).any
                (fun e => e.operation = "PUT") &&
              (entries.filter (fun e => (e.bucket, e.key) = bk)).any
                (fun e => e.operation = "DELETE")
          then acc
          else
            match (entries.filter (fun e => (e.bucket, e.key) = bk)).getLast? with
            | some last_op => last_op :: acc
            | none => acc)
        [] := rfl
  rw [hob]
  have hkey : ∀ bk (e : REntry),
      e ∈ entries.filter (fun e => (e.bucket, e.key) = bk) →
      (e.bucket, e.key) = bk := by
    intro bk e he
    have := (List.mem_filter.mp he).2
    exact of_decide_eq_true this
  have H : ∀ keys : List (String × String), keys.Nodup →
      ((keys.foldr
        (fun bk acc =>
          if (entries.filter (fun e => (e.bucket, e.key) = bk)).any
                (fun e => e.operation = "PUT") &&
              (entries.filter (fun e => (e.bucket, e.key) = bk)).any
                (fun e => e.operation = "DELETE")
          then acc
          else
            match (entries.filter (fun e => (e.bucket, e.key) = bk)).getLast? with
            | some last_op => last_op :: acc
            | none => acc)
        []).filter (fun e => (e.bucket, e.key) = (b, k))) =
      (if (b, k) ∈ keys then
        (if (entries.filter (fun e => (e.bucket, e.key) = (b, k))).any
              (fun e => e.operation = "PUT") &&
            (entries.filter (fun e => (e.bucket, e.key) = (b, k))).any
              (fun e => e.operation = "DELETE")
         then []
         else ((entries.filter (fun e => (e.bucket, e.key) = (b, k))).getLast?).toList)
       else []) := by
    intro keys
    induction keys with
    | nil => intro _; simp
    | cons bk ks ih =>
      intro hnd
      obtain ⟨hbk, hnd'⟩ := List.nodup_cons.mp hnd
      simp only [List.foldr_cons]
      by_cases hbkeq : bk = (b, k)
      · subst hbkeq
        by_cases hboth :
            ((entries.filter (fun e => (e.bucket, e.key) = (b, k))).any
                (fun e => e.operation = "PUT") &&
              (entries.filter (fun e => (e.bucket, e.key) = (b, k))).any
                (fun e => e.operation = "DELETE")) = true
        · rw [if_pos hboth, ih hnd', if_neg hbk,
            if_pos (List.mem_cons_self (b, k) ks), if_pos hboth]
        · rw [if_neg hboth]
          cases hgl : (entries.filter (fun e => (e.bucket, e.key) = (b, k))).getLast? with
          | none =>
            rw [ih hnd', if_neg hbk, if_pos (List.mem_cons_self (b, k) ks),
              if_neg hboth]
            rfl
          | some e =>
            have hpe : (e.bucket, e.key) = (b, k) :=
              hkey (b, k) e (List.mem_of_mem_getLast? (by rw [hgl]; rfl))
            rw [List.filter_cons, if_pos (by simpa using hpe), ih hnd', if_neg hbk,
              if_pos (List.mem_cons_self (b, k) ks), if_neg hboth]
            rfl
      · have hdrop : ∀ X : List REntry,
            ((if (entries.filter (fun e => (e.bucket, e.key) = bk)).any
                  (fun e => e.operation = "PUT") &&
                (entries.filter (fun e => (e.bucket, e.key) = bk)).any
                  (fun e => e.operation = "DELETE")
              then X
              else
                match (entries.filter (fun e => (e.bucket, e.key) = bk)).getLast? with
                | some last_op => last_op :: X
                | none => X).filter (fun e => (e.bucket, e.key) = (b, k))) =
            X.filter (fun e => (e.bucket, e.key) = (b, k)) := by
          intro X
          split
          · rfl
          · cases hgl : (entries.filter (fun e => (e.bucket, e.key) = bk)).getLast? with
            | none => rfl
            | some e =>
              have hpe : (e.bucket, e.key) = bk :=
                hkey bk e (List.mem_of_mem_getLast? (by rw [hgl]; rfl))
              rw [List.filter_cons, if_neg (by simp [hpe, hbkeq])]
        have hmc : ((b, k) ∈ bk :: ks) ↔ ((b, k) ∈ ks) := by
          constructor
          · intro h
            rcases List.mem_cons.mp h with h | h
            · exact absurd h.symm hbkeq
            · exact h
          · intro h
            exact List.mem_cons_of_mem bk h
        rw [hdrop, ih hnd']
        by_cases hin : (b, k) ∈ ks
        · rw [if_pos hin, if_pos (hmc.mpr hin)]
        · rw [if_neg hin, if_neg (fun hc => hin (hmc.mp hc))]
  rw [H _ (nodup_firstKeys _)]
  by_cases hin : (b, k) ∈ firstKeys (entries.map fun e => (e.bucket, e.key))
  · rw [if_pos hin]
  · rw [if_neg hin]
    have hops : entries.filter (fun e => (e.bucket, e.key) = (b, k)) = [] := by
      rw [List.filter_eq_nil_iff]
      intro e he
      intro hpe
      apply hin
      rw [mem_firstKeys]
      exact List.mem_map.mpr ⟨e, he, of_decide_eq_true hpe⟩
    rw [hops]
    rfl

/-- Claim C9's final-state consequence is false: in the batch
`[DELETE b/k, PUT b/k]` the key has both a PUT and a DELETE, so
`optimize_batch` drops it entirely; applying the full batch to a target that
holds stale bytes `[1]` ends with the source bytes `[2]`, while applying the
optimised (empty) batch leaves the stale `[1]` — different final states. -/
theorem C9_counterexample :
    applyBatch replSource replBatch replTarget ("b", "k") = some [2] ∧
    applyBatch replSource (optimize_batch replBatch) replTarget ("b", "k") =
      some [1] := by
  refine ⟨by decide, by decide⟩

/-! ## Claim C10 -/

/-- Claim C10, confirmed: `put_object` never answers `NoSuchBucket` — for
every store (including one with no record of bucket `b`), it stores the
object, returns 200, and leaves an in-memory bucket record containing the
key. -/
theorem C10_put_implicit_bucket (md5hex : Bytes → String) (cipher : Cipher)
    (vid : String) (s : Store) (b k : String) (body : Bytes) :
    (put_object md5hex cipher vid s b k body).1.status = 200 ∧
    ((put_object md5hex cipher vid s b k body).2.objects (b, k)).isSome = true ∧
    ((put_object md5hex cipher vid s b k body).2.buckets b).isSome = true ∧
    ((((put_object md5hex cipher vid s b k body).2.buckets b).getD
        newBucketMem).memObjects k).isSome = true := by
  refine ⟨rfl, ?_, ?_, ?_⟩ <;> simp [put_object, mupd]
